import Mathlib

/-!
Shallow embedding of the authentication / session / per-user task core of
`src/app.py` (a Flask + SQLite to-do application), together with proofs of
the specified properties.

Modelling conventions:
* The SQLite database is a record of a user table, a todo table, the next
  autoincrement row ids, and a monotone clock standing for
  `datetime.utcnow().isoformat()` (timestamps are `Nat`, strictly increasing
  across inserts, which is the intended reading of ISO timestamps).
* Each Flask view function becomes a pure function from its form/query
  inputs and the database (and, for auth views, the session) to its result
  and the updated state.  `abort(404)` becomes `HttpResult.notFound`.
* SQL `LIKE '%q%'` is embedded by `likeMatch`, SQLite's default semantics:
  `%` matches any sequence, `_` any single character, and letter comparison
  folds ASCII upper case to lower case (SQLite's default `LIKE` is
  case-insensitive for ASCII).
* SQL `ORDER BY done, created_at DESC` is embedded as an insertion sort by
  the boolean key `taskLe`; SQL leaves the relative order of key-equal rows
  unspecified, and any sort by that key is a faithful model.
-/

namespace TodoApp

/-- Python `str.strip()` whitespace test, restricted to the ASCII whitespace
characters Python strips (space, tab, newline, carriage return, vertical
tab, form feed). -/
def isPySpace (c : Char) : Bool :=
  c == ' ' || c == '\t' || c == '\n' || c == '\r' || c == '\x0b' || c == '\x0c'

/-- Python `str.strip()`: drop leading and trailing whitespace. -/
def pyStrip (s : String) : String :=
  String.mk (((s.data.dropWhile isPySpace).reverse.dropWhile isPySpace).reverse)

/-- One step of `%` in a `LIKE` pattern: try the continuation `f` on every
suffix of the string. -/
def likeStar (f : List Char → Bool) : List Char → Bool
  | [] => f []
  | c :: cs => f (c :: cs) || likeStar f cs

/-- SQLite `LIKE` pattern matching with default options: `%` matches any
sequence, `_` matches one character, and ordinary characters compare after
ASCII lower-casing (SQLite's default `LIKE` is case-insensitive for the
ASCII range; `Char.toLower` folds exactly A-Z). -/
def likeMatch : List Char → List Char → Bool
  | [], s => s.isEmpty
  | p :: ps, s =>
    if p = '%' then likeStar (likeMatch ps) s
    else
      match s with
      | [] => false
      | c :: cs => (if p = '_' then true else p.toLower == c.toLower) && likeMatch ps cs

/-- The SQL condition `column LIKE '%' || q || '%'` from the dashboard
query, applied to a column value `s`. -/
def likeContains (q s : String) : Bool :=
  likeMatch ('%' :: (q.data ++ ['%'])) s.data

/-- Boolean substring containment on raw character lists (used to state the
spec's search predicates, not taken from the code). -/
def containsSub (q : List Char) : List Char → Bool
  | [] => q.isEmpty
  | c :: cs => q.isPrefixOf (c :: cs) || containsSub q cs

/-- Case-sensitive substring containment: the search predicate as the spec
states it ("contains `query` as a case-sensitive substring"). -/
def csContains (q s : String) : Bool :=
  containsSub q.data s.data

/-- Case-insensitive (ASCII) substring containment: the search predicate the
code actually implements through SQLite `LIKE`. -/
def ciContains (q s : String) : Bool :=
  containsSub (q.data.map Char.toLower) (s.data.map Char.toLower)

/-- Models werkzeug's `generate_password_hash` (an external library, outside
`src/`), by its contract: a deterministic one-way encoding of the password,
injective so that verification succeeds exactly on the original password.
The salt is irrelevant to the verified properties and is omitted. -/
def generate_password_hash (p : String) : String :=
  String.mk ('#' :: p.data)

/-- Models werkzeug's `check_password_hash`: verification succeeds exactly
when the candidate password re-hashes to the stored hash. -/
def check_password_hash (h p : String) : Bool :=
  h == generate_password_hash p

/-- A row of the `users` table (`schema.sql`, described in the spec's
external-interface section: `users(id, username UNIQUE, password_hash,
created_at)`). -/
structure User where
  id : Nat
  username : String
  password_hash : String
  created_at : Nat
deriving DecidableEq

/-- A row of the `todos` table: `todos(id, user_id, title, description,
due_date, done, created_at)`. -/
structure Task where
  id : Nat
  user_id : Nat
  title : String
  description : String
  due_date : Option String
  done : Bool
  created_at : Nat
deriving DecidableEq

/-- The SQLite database state: both tables, the next autoincrement row id of
each, and a monotone clock standing for `datetime.utcnow()`. -/
structure DB where
  users : List User
  todos : List Task
  nextUserId : Nat
  nextTaskId : Nat
  clock : Nat
deriving DecidableEq

/-- A session value (Flask session dictionary values: the integer `user_id`
or the string `username`). -/
inductive SVal where
  | nat (n : Nat)
  | str (s : String)
deriving DecidableEq

/-- The Flask session: a key-value dictionary, modelled as an association
list; `session.clear()` is `[]`. -/
abbrev Session := List (String × SVal)

/-- Flask `session[k] = v`: replace the value of an existing key, otherwise
append the binding. -/
def session_set (s : Session) (k : String) (v : SVal) : Session :=
  match s with
  | [] => [(k, v)]
  | (k', v') :: rest => if k' = k then (k, v) :: rest else (k', v') :: session_set rest k v

/-- Result of a view that may `abort(404)`. -/
inductive HttpResult (α : Type) where
  | notFound
  | ok (a : α)
deriving DecidableEq

/-- Outcome of the `register` view's POST branch. -/
inductive RegOutcome where
  | missingFields
  | passwordMismatch
  | usernameTaken
  | created
deriving DecidableEq

/-- Outcome of the `add_task` view's POST branch. -/
inductive AddOutcome where
  | validationError
  | added
deriving DecidableEq

/-- Outcome of the `edit_task` view's POST branch (after the 404 check). -/
inductive EditOutcome where
  | validationError
  | updated
deriving DecidableEq

/-- `create_user` from `app.py`: INSERT the new user with the password
hashed; the `sqlite3.IntegrityError` branch (returning `False`) is taken
exactly when the `UNIQUE` constraint on `users.username` is violated.
The constraint itself lives in `schema.sql`, which is not under `src/`;
modelled from the spec: `users(id, username UNIQUE, password_hash,
created_at)` with autoincrement ids. -/
def create_user (username password : String) (db : DB) : Bool × DB :=
  if db.users.any (fun u => u.username == username) then
    (false, db)
  else
    (true,
      { db with
        users := db.users ++
          [{ id := db.nextUserId
             username := username
             password_hash := generate_password_hash password
             created_at := db.clock }]
        nextUserId := db.nextUserId + 1
        clock := db.clock + 1 })

/-- `authenticate` from `app.py`: `SELECT id, password_hash FROM users WHERE
username = ?`, then verify the password against the stored hash. -/
def authenticate (username password : String) (db : DB) : Option Nat :=
  match db.users.find? (fun u => u.username == username) with
  | some row => if check_password_hash row.password_hash password then some row.id else none
  | none => none

/-- The form fields read by the `register` view. -/
structure RegisterForm where
  username : String
  password : String
  password2 : String

/-- The form fields read by the `login` view. -/
structure LoginForm where
  username : String
  password : String

/-- The form fields read by the `add_task` / `edit_task` views.  `done` is
the raw checkbox field, compared against `"on"` by `edit_task`. -/
structure TaskForm where
  title : String
  description : String
  due_date : String
  done : String

/-- The POST branch of the `register` view: strip the username, require a
non-empty username and password, require matching passwords, then call
`create_user`. -/
def register (f : RegisterForm) (db : DB) : RegOutcome × DB :=
  let username := pyStrip f.username
  if username = "" ∨ f.password = "" then (.missingFields, db)
  else if f.password ≠ f.password2 then (.passwordMismatch, db)
  else
    match create_user username f.password db with
    | (true, db') => (.created, db')
    | (false, db') => (.usernameTaken, db')

/-- The POST branch of the `login` view: strip the username, authenticate,
and on success (`if user_id:` — Python truthiness, so `None` and `0` both
fail) clear the session and store the new identity.  Returns whether login
succeeded and the resulting session. -/
def login (f : LoginForm) (sess : Session) (db : DB) : Bool × Session :=
  let username := pyStrip f.username
  match authenticate username f.password db with
  | some uid =>
    if uid ≠ 0 then
      (true, session_set (session_set ([] : Session) "user_id" (.nat uid)) "username" (.str username))
    else (false, sess)
  | none => (false, sess)

/-- The `logout` view: `session.clear()`, unconditionally. -/
def logout (_sess : Session) : Session := []

/-- The `ORDER BY done, created_at DESC` sort key as a boolean "less or
equal": ascending on `done` (`false` sorts as 0, before `true` as 1), and
descending on `created_at` within equal `done`. -/
def taskLe (a b : Task) : Bool :=
  (!a.done && b.done) || ((a.done == b.done) && decide (b.created_at ≤ a.created_at))

/-- Insert into a list sorted by `le`, keeping existing `le`-smaller
elements in front. -/
def insertLe (le : Task → Task → Bool) (a : Task) : List Task → List Task
  | [] => [a]
  | b :: l => if le b a then b :: insertLe le a l else a :: b :: l

/-- Insertion sort by `le`: the embedding of SQL `ORDER BY` (SQL leaves the
relative order of key-equal rows unspecified). -/
def orderBy (le : Task → Task → Bool) : List Task → List Task
  | [] => []
  | a :: l => insertLe le a (orderBy le l)

/-- The `dashboard` view: strip the query parameter `q`; if it is non-empty,
select the caller's tasks whose title or description matches
`LIKE '%q%'`, otherwise all the caller's tasks; order by
`done, created_at DESC`. -/
def dashboard (uid : Nat) (q : String) (db : DB) : List Task :=
  let search := pyStrip q
  let rows :=
    if search ≠ "" then
      db.todos.filter (fun t =>
        t.user_id == uid && (likeContains search t.title || likeContains search t.description))
    else
      db.todos.filter (fun t => t.user_id == uid)
  orderBy taskLe rows

/-- The POST branch of the `add_task` view: strip the fields, normalize an
empty `due_date` to `NULL`, reject an empty title with no state change,
otherwise INSERT the new task with `done = 0`. -/
def add_task (uid : Nat) (f : TaskForm) (db : DB) : AddOutcome × DB :=
  let title := pyStrip f.title
  let description := pyStrip f.description
  let due_date := if pyStrip f.due_date = "" then none else some (pyStrip f.due_date)
  if title = "" then (.validationError, db)
  else
    (.added,
      { db with
        todos := db.todos ++
          [{ id := db.nextTaskId
             user_id := uid
             title := title
             description := description
             due_date := due_date
             done := false
             created_at := db.clock }]
        nextTaskId := db.nextTaskId + 1
        clock := db.clock + 1 })

/-- The POST branch of the `edit_task` view: `SELECT * FROM todos WHERE id =
? AND user_id = ?` and `abort(404)` on no row; then strip the fields, reject
an empty title with no state change, otherwise `UPDATE todos SET ... WHERE
id = ?` (the UPDATE itself filters on `id` only; ownership was checked by
the SELECT). -/
def edit_task (uid tid : Nat) (f : TaskForm) (db : DB) : HttpResult (EditOutcome × DB) :=
  match db.todos.find? (fun t => t.id == tid && t.user_id == uid) with
  | none => .notFound
  | some _ =>
    let title := pyStrip f.title
    let description := pyStrip f.description
    let due_date := if pyStrip f.due_date = "" then none else some (pyStrip f.due_date)
    let done := f.done = "on"
    if title = "" then .ok (.validationError, db)
    else
      .ok (.updated,
        { db with
          todos := db.todos.map (fun t =>
            if t.id = tid then
              { t with title := title, description := description,
                       due_date := due_date, done := done }
            else t) })

/-- The `delete_task` view: `DELETE FROM todos WHERE id = ? AND user_id =
?`; deleting zero rows is not an error. -/
def delete_task (uid tid : Nat) (db : DB) : DB :=
  { db with todos := db.todos.filter (fun t => !(t.id == tid && t.user_id == uid)) }

/-- The `toggle_task` view: `SELECT done FROM todos WHERE id = ? AND user_id
= ?`, `abort(404)` on no row, otherwise `UPDATE todos SET done = ? WHERE id
= ?` with the negated flag (the UPDATE filters on `id` only). -/
def toggle_task (uid tid : Nat) (db : DB) : HttpResult DB :=
  match db.todos.find? (fun t => t.id == tid && t.user_id == uid) with
  | none => .notFound
  | some row =>
    let new_done := !row.done
    .ok { db with
          todos := db.todos.map (fun t => if t.id = tid then { t with done := new_done } else t) }

/-! ### Concrete example data (for witnesses and counterexamples) -/

/-- Example user "alice" (id 1). -/
def aliceUser : User :=
  ⟨1, "alice", generate_password_hash "pw123", 0⟩

/-- Example user "bob" (id 2). -/
def bobUser : User :=
  ⟨2, "bob", generate_password_hash "pw456", 1⟩

/-- Alice's task "Buy Milk" (id 1, owned by user 1). -/
def milkTask : Task :=
  ⟨1, 1, "Buy Milk", "", none, false, 2⟩

/-- Example database: alice and bob registered, one task owned by alice. -/
def exDb : DB :=
  ⟨[aliceUser, bobUser], [milkTask], 3, 2, 3⟩

/-- Ordering example: T1 incomplete, created first. -/
def ordT1 : Task :=
  ⟨1, 1, "first", "", none, false, 0⟩

/-- Ordering example: T2 complete, created second. -/
def ordT2 : Task :=
  ⟨2, 1, "second", "", none, true, 1⟩

/-- Ordering example: T3 incomplete, created third. -/
def ordT3 : Task :=
  ⟨3, 1, "third", "", none, false, 2⟩

/-- Ordering example database: alice owns T1, T2, T3. -/
def ordDb : DB :=
  ⟨[aliceUser], [ordT1, ordT2, ordT3], 2, 4, 3⟩

/-- Empty database with SQLite-style row ids starting at 1. -/
def emptyDb : DB :=
  ⟨[], [], 1, 1, 0⟩

/-! ### Helper lemmas -/

theorem generate_password_hash_inj {p q : String}
    (h : generate_password_hash p = generate_password_hash q) : p = q := by
  have hd := congrArg String.data h
  exact String.ext (by simpa [generate_password_hash] using hd)

theorem check_password_hash_iff (p q : String) :
    check_password_hash (generate_password_hash p) q = true ↔ q = p := by
  unfold check_password_hash
  rw [beq_iff_eq]
  constructor
  · intro h
    exact (generate_password_hash_inj h.symm)
  · intro h
    rw [h]

theorem find?_append_of_none {α : Type} {p : α → Bool} {l₁ l₂ : List α}
    (h : l₁.find? p = none) : (l₁ ++ l₂).find? p = l₂.find? p := by
  simp [List.find?_append, h]

theorem authenticate_create_user (db : DB) (name p : String)
    (hfresh : ∀ u ∈ db.users, u.username ≠ name) :
    (create_user name p db).1 = true ∧
    (create_user name p db).2.users =
      db.users ++ [⟨db.nextUserId, name, generate_password_hash p, db.clock⟩] ∧
    ∀ p2, authenticate name p2 (create_user name p db).2 =
      if p2 = p then some db.nextUserId else none := by
  have hany : db.users.any (fun u => u.username == name) = false := by
    rw [← Bool.not_eq_true, List.any_eq_true]
    rintro ⟨u, hu, hbeq⟩
    exact hfresh u hu (by simpa using hbeq)
  have hnone : db.users.find? (fun u => u.username == name) = none := by
    rw [List.find?_eq_none]
    intro u hu
    simp [hfresh u hu]
  have h1 : create_user name p db =
      (true,
        { db with
          users := db.users ++ [⟨db.nextUserId, name, generate_password_hash p, db.clock⟩]
          nextUserId := db.nextUserId + 1
          clock := db.clock + 1 }) := by
    simp [create_user, hany]
  rw [h1]
  refine ⟨rfl, rfl, ?_⟩
  intro p2
  unfold authenticate
  rw [show ({ db with
        users := db.users ++ [⟨db.nextUserId, name, generate_password_hash p, db.clock⟩]
        nextUserId := db.nextUserId + 1
        clock := db.clock + 1 } : DB).users =
      db.users ++ [⟨db.nextUserId, name, generate_password_hash p, db.clock⟩] from rfl]
  rw [find?_append_of_none hnone]
  simp only [List.find?_cons, beq_self_eq_true]
  by_cases h : p2 = p
  · subst h
    simp [check_password_hash_iff]
  · simp only [if_neg h, cond_true]
    rw [if_neg]
    intro hc
    exact absurd ((check_password_hash_iff p p2).mp hc) h

theorem eq_of_mem_of_id_eq {l : List Task} (nd : (l.map Task.id).Nodup) {s t : Task}
    (hs : s ∈ l) (ht : t ∈ l) (h : s.id = t.id) : s = t := by
  induction l with
  | nil => cases hs
  | cons a l ih =>
    rw [List.map_cons, List.nodup_cons] at nd
    rcases List.mem_cons.mp hs with rfl | hs' <;> rcases List.mem_cons.mp ht with rfl | ht'
    · rfl
    · exact absurd (h ▸ List.mem_map_of_mem Task.id ht') nd.1
    · exact absurd (h ▸ List.mem_map_of_mem Task.id hs') nd.1
    · exact ih nd.2 hs' ht'

theorem find?_eq_some_of_unique {l : List Task} {t : Task} {p : Task → Bool}
    (nd : (l.map Task.id).Nodup) (ht : t ∈ l) (hpt : p t = true)
    (hid : ∀ s, p s = true → s.id = t.id) : l.find? p = some t := by
  induction l with
  | nil => cases ht
  | cons a l ih =>
    by_cases hpa : p a = true
    · rw [List.find?_cons_of_pos _ hpa]
      have ha : a = t := eq_of_mem_of_id_eq nd (List.mem_cons_self a l) ht (hid a hpa)
      rw [ha]
    · have hta : t ≠ a := fun h => hpa (h ▸ hpt)
      rw [List.find?_cons_of_neg _ hpa]
      rw [List.map_cons, List.nodup_cons] at nd
      exact ih nd.2 ((List.mem_cons.mp ht).resolve_left hta)

theorem mem_insertLe {le : Task → Task → Bool} {a b : Task} {l : List Task} :
    b ∈ insertLe le a l ↔ b = a ∨ b ∈ l := by
  induction l with
  | nil => simp [insertLe]
  | cons c l ih =>
    unfold insertLe
    split <;> { simp only [List.mem_cons, ih]; try tauto }

theorem mem_orderBy {le : Task → Task → Bool} {b : Task} {l : List Task} :
    b ∈ orderBy le l ↔ b ∈ l := by
  induction l with
  | nil => simp [orderBy]
  | cons a l ih => simp [orderBy, mem_insertLe, ih]

theorem pairwise_insertLe {le : Task → Task → Bool}
    (total : ∀ a b, (le a b || le b a) = true)
    (trans : ∀ a b c, le a b = true → le b c = true → le a c = true)
    (a : Task) {l : List Task} (hl : l.Pairwise (fun x y => le x y = true)) :
    (insertLe le a l).Pairwise (fun x y => le x y = true) := by
  induction l with
  | nil => simp [insertLe]
  | cons b l ih =>
    rw [List.pairwise_cons] at hl
    unfold insertLe
    split
    · rename_i h
      rw [List.pairwise_cons]
      refine ⟨?_, ih hl.2⟩
      intro x hx
      rcases mem_insertLe.mp hx with rfl | hx'
      · exact h
      · exact hl.1 x hx'
    · rename_i h
      have hab : le a b = true := by
        rcases Bool.or_eq_true_iff.mp (total a b) with h' | h'
        · exact h'
        · exact absurd h' h
      rw [List.pairwise_cons]
      refine ⟨?_, List.pairwise_cons.mpr hl⟩
      intro x hx
      rcases List.mem_cons.mp hx with rfl | hx'
      · exact hab
      · exact trans a b x hab (hl.1 x hx')

theorem pairwise_orderBy {le : Task → Task → Bool}
    (total : ∀ a b, (le a b || le b a) = true)
    (trans : ∀ a b c, le a b = true → le b c = true → le a c = true)
    (l : List Task) : (orderBy le l).Pairwise (fun x y => le x y = true) := by
  induction l with
  | nil => simp [orderBy]
  | cons a l ih => exact pairwise_insertLe total trans a ih

theorem taskLe_total : ∀ a b : Task, (taskLe a b || taskLe b a) = true := by
  intro a b
  simp only [taskLe]
  cases a.done <;> cases b.done <;> simp <;> omega

theorem taskLe_trans :
    ∀ a b c : Task, taskLe a b = true → taskLe b c = true → taskLe a c = true := by
  intro a b c
  simp only [taskLe]
  cases a.done <;> cases b.done <;> cases c.done <;> simp <;> omega

theorem mem_dashboard {uid : Nat} {db : DB} {t : Task} (q : String) :
    t ∈ dashboard uid q db ↔
      t ∈ db.todos ∧ t.user_id = uid ∧
        (pyStrip q ≠ "" →
          (likeContains (pyStrip q) t.title || likeContains (pyStrip q) t.description) = true) := by
  unfold dashboard
  simp only
  rw [mem_orderBy]
  by_cases h : pyStrip q ≠ ""
  · rw [if_pos h]
    simp only [List.mem_filter, Bool.and_eq_true, beq_iff_eq]
    tauto
  · rw [if_neg h]
    simp only [List.mem_filter, beq_iff_eq]
    tauto

theorem likeMatch_percent (s : List Char) : likeMatch ['%'] s = true := by
  induction s with
  | nil => rfl
  | cons c cs ih =>
    show likeStar (likeMatch []) (c :: cs) = true
    show (likeMatch [] (c :: cs) || likeStar (likeMatch []) cs) = true
    have : likeStar (likeMatch []) cs = true := ih
    simp [this]

theorem isPrefixOf_nil_eq (q : List Char) : q.isPrefixOf ([] : List Char) = q.isEmpty := by
  cases q <;> rfl

theorem likeMatch_lit (q : List Char) (hq : ∀ c ∈ q, c ≠ '%' ∧ c ≠ '_') (s : List Char) :
    likeMatch (q ++ ['%']) s = (q.map Char.toLower).isPrefixOf (s.map Char.toLower) := by
  induction q generalizing s with
  | nil => simp [likeMatch_percent, List.isPrefixOf]
  | cons c q' ih =>
    have hc := hq c (List.mem_cons_self c q')
    have hq' : ∀ d ∈ q', d ≠ '%' ∧ d ≠ '_' := fun d hd => hq d (List.mem_cons_of_mem c hd)
    cases s with
    | nil =>
      simp only [List.cons_append, likeMatch, if_neg hc.1, List.map_nil, List.map_cons]
      rfl
    | cons d ds =>
      simp only [List.cons_append, likeMatch, if_neg hc.1, if_neg hc.2, List.map_cons,
        List.append_eq]
      rw [ih hq']
      rfl

theorem likeMatch_pct (q : List Char) (hq : ∀ c ∈ q, c ≠ '%' ∧ c ≠ '_') (s : List Char) :
    likeMatch ('%' :: (q ++ ['%'])) s = containsSub (q.map Char.toLower) (s.map Char.toLower) := by
  induction s with
  | nil =>
    show likeStar (likeMatch (q ++ ['%'])) [] = _
    show likeMatch (q ++ ['%']) [] = _
    rw [likeMatch_lit q hq]
    simp [containsSub, isPrefixOf_nil_eq]
  | cons c cs ih =>
    show likeStar (likeMatch (q ++ ['%'])) (c :: cs) = _
    show (likeMatch (q ++ ['%']) (c :: cs) || likeStar (likeMatch (q ++ ['%'])) cs) = _
    have hcs : likeStar (likeMatch (q ++ ['%'])) cs = likeMatch ('%' :: (q ++ ['%'])) cs := rfl
    rw [hcs, ih, likeMatch_lit q hq]
    rfl

theorem likeContains_eq_ciContains (q s : String) (hq : ∀ c ∈ q.data, c ≠ '%' ∧ c ≠ '_') :
    likeContains q s = ciContains q s := by
  unfold likeContains ciContains
  exact likeMatch_pct q.data hq s.data

theorem taskLe_implies {a b : Task} (h : taskLe a b = true) :
    (a.done = false ∧ b.done = true) ∨ (a.done = b.done ∧ b.created_at ≤ a.created_at) := by
  simp only [taskLe, Bool.or_eq_true, Bool.and_eq_true, beq_iff_eq,
    decide_eq_true_eq, Bool.not_eq_true'] at h
  rcases h with ⟨h1, h2⟩ | ⟨h1, h2⟩
  · exact Or.inl ⟨h1, h2⟩
  · exact Or.inr ⟨h1, h2⟩

theorem toggle_task_eq_of_find {db : DB} {uid tid : Nat} {row : Task}
    (h : db.todos.find? (fun s => s.id == tid && s.user_id == uid) = some row) :
    toggle_task uid tid db =
      .ok { db with
            todos := db.todos.map (fun s =>
              if s.id = tid then { s with done := !row.done } else s) } := by
  unfold toggle_task
  rw [h]

/-! ### Claim theorems -/

/-- C1: per-user ownership isolation.  For users `A ≠ B`, a task `t` of `A`
never appears in `B`'s dashboard listing (with or without a search query);
`edit_task` and `toggle_task` invoked with `B`'s identity against `t.id`
return 404 (and hence change nothing), and `delete_task` is a no-op leaving
the whole database, in particular `A`'s task, unmodified.  The hypothesis is
the table invariant that row ids are unique. -/
theorem c1_ownership_isolation (db : DB) (A B : Nat) (t : Task) (f : TaskForm)
    (nd : (db.todos.map Task.id).Nodup) (ht : t ∈ db.todos)
    (hA : t.user_id = A) (hAB : A ≠ B) :
    (∀ q, t ∉ dashboard B q db) ∧
    edit_task B t.id f db = .notFound ∧
    toggle_task B t.id db = .notFound ∧
    delete_task B t.id db = db := by
  have hBneq : t.user_id ≠ B := by
    rw [hA]
    exact hAB
  have hpred : ∀ s ∈ db.todos, ¬((s.id == t.id && s.user_id == B) = true) := by
    intro s hs hp
    simp only [Bool.and_eq_true, beq_iff_eq] at hp
    have hst : s = t := eq_of_mem_of_id_eq nd hs ht hp.1
    rw [hst] at hp
    exact hBneq hp.2
  have hfind : db.todos.find? (fun s => s.id == t.id && s.user_id == B) = none :=
    List.find?_eq_none.mpr hpred
  refine ⟨?_, ?_, ?_, ?_⟩
  · intro q hmem
    exact hBneq ((mem_dashboard q).mp hmem).2.1
  · unfold edit_task
    rw [hfind]
  · unfold toggle_task
    rw [hfind]
  · unfold delete_task
    have hkeep : db.todos.filter (fun s => !(s.id == t.id && s.user_id == B)) = db.todos := by
      rw [List.filter_eq_self]
      intro s hs
      simp only [Bool.not_eq_true']
      exact Bool.eq_false_iff.mpr (hpred s hs)
    rw [hkeep]

/-- Witness for C1: in the concrete two-user database, Bob (user 2) cannot
see, edit, toggle, or delete Alice's "Buy Milk" task. -/
theorem c1_ownership_isolation_witness :
    (∀ q, milkTask ∉ dashboard 2 q exDb) ∧
    edit_task 2 milkTask.id ⟨"new", "", "", ""⟩ exDb = .notFound ∧
    toggle_task 2 milkTask.id exDb = .notFound ∧
    delete_task 2 milkTask.id exDb = exDb :=
  c1_ownership_isolation exDb 1 2 milkTask ⟨"new", "", "", ""⟩
    (by decide) (by decide) (by decide) (by decide)

/-- C2: registration/login round-trip.  For a username not yet taken and any
password accepted by registration, `create_user` succeeds, appends exactly
one user row carrying the fresh id `db.nextUserId`, `authenticate` with the
same credentials returns that id, and `authenticate` with any different
password returns `none`. -/
theorem c2_register_authenticate_roundtrip (db : DB) (name p : String)
    (hfresh : ∀ u ∈ db.users, u.username ≠ name)
    (hname : name ≠ "") (hp : p ≠ "") :
    (create_user name p db).1 = true ∧
    (create_user name p db).2.users =
      db.users ++ [⟨db.nextUserId, name, generate_password_hash p, db.clock⟩] ∧
    authenticate name p (create_user name p db).2 = some db.nextUserId ∧
    ∀ p2, p2 ≠ p → authenticate name p2 (create_user name p db).2 = none := by
  obtain ⟨h1, h2, h3⟩ := authenticate_create_user db name p hfresh
  refine ⟨h1, h2, ?_, ?_⟩
  · rw [h3 p, if_pos rfl]
  · intro p2 hne
    rw [h3 p2, if_neg hne]

/-- Witness for C2: registering "alice"/"pw123" on the empty database and
logging back in returns user id 1; a wrong password returns no identity. -/
theorem c2_register_authenticate_roundtrip_witness :
    (create_user "alice" "pw123" emptyDb).1 = true ∧
    (create_user "alice" "pw123" emptyDb).2.users =
      emptyDb.users ++ [⟨emptyDb.nextUserId, "alice", generate_password_hash "pw123", emptyDb.clock⟩] ∧
    authenticate "alice" "pw123" (create_user "alice" "pw123" emptyDb).2 = some emptyDb.nextUserId ∧
    ∀ p2, p2 ≠ "pw123" → authenticate "alice" p2 (create_user "alice" "pw123" emptyDb).2 = none :=
  c2_register_authenticate_roundtrip emptyDb "alice" "pw123"
    (by simp [emptyDb]) (by decide) (by decide)

/-- C3 counterexample: the claim says the listing matches the query as a
case-SENSITIVE substring and excludes tasks matching only in a different
letter case.  But with the query "milk", whose only occurrence in Alice's
data is the differently-cased "Buy Milk" title (case-sensitively, neither
title nor description contains "milk"), the dashboard still returns the
task: SQLite `LIKE` is case-insensitive for ASCII by default. -/
theorem c3_counterexample :
    dashboard 1 "milk" exDb = [milkTask] ∧
    csContains "milk" milkTask.title = false ∧
    csContains "milk" milkTask.description = false := by
  refine ⟨by decide, by decide, by decide⟩

/-- C3 (amended): for every non-empty query without surrounding whitespace
and without the `LIKE` wildcard characters `%` and `_`, the listing returns
exactly the caller's tasks whose title or description contains the query as
a case-insensitive (ASCII) substring. -/
theorem c3_search_case_insensitive (db : DB) (uid : Nat) (q : String) (t : Task)
    (hs : pyStrip q = q) (hq : q ≠ "")
    (hw : ∀ c ∈ q.data, c ≠ '%' ∧ c ≠ '_') :
    t ∈ dashboard uid q db ↔
      t ∈ db.todos ∧ t.user_id = uid ∧
        (ciContains q t.title || ciContains q t.description) = true := by
  rw [mem_dashboard q, hs,
    likeContains_eq_ciContains q t.title hw, likeContains_eq_ciContains q t.description hw]
  simp [hq]

/-- Witness for C3 (amended): the "milk" query against Alice's data. -/
theorem c3_search_case_insensitive_witness :
    milkTask ∈ dashboard 1 "milk" exDb ↔
      milkTask ∈ exDb.todos ∧ milkTask.user_id = 1 ∧
        (ciContains "milk" milkTask.title || ciContains "milk" milkTask.description) = true :=
  c3_search_case_insensitive exDb 1 "milk" milkTask (by decide) (by decide) (by decide)

/-- C4: the listing places incomplete tasks before complete ones and orders
by creation time descending within each group (pairwise, for every database,
user and query); and on the concrete T1 (incomplete, first), T2 (complete,
second), T3 (incomplete, third) it returns [T3, T1, T2]. -/
theorem c4_listing_order :
    (∀ db uid q, (dashboard uid q db).Pairwise
      (fun a b => (a.done = false ∧ b.done = true) ∨
        (a.done = b.done ∧ b.created_at ≤ a.created_at))) ∧
    dashboard 1 "" ordDb = [ordT3, ordT1, ordT2] := by
  constructor
  · intro db uid q
    unfold dashboard
    exact (pairwise_orderBy taskLe_total taskLe_trans _).imp taskLe_implies
  · decide

/-- C5: title validation with atomicity.  With a whitespace-only (or empty)
title field, `add_task` reports a validation error and returns the database
unchanged, and `edit_task` on an existing task owned by the caller reports a
validation error and returns the database unchanged (every field of every
task intact). -/
theorem c5_title_validation (db : DB) (uid : Nat) (f : TaskForm)
    (h : pyStrip f.title = "") :
    add_task uid f db = (.validationError, db) ∧
    ∀ tid t, t ∈ db.todos → t.id = tid → t.user_id = uid →
      edit_task uid tid f db = .ok (.validationError, db) := by
  constructor
  · simp [add_task, h]
  · intro tid t ht hid huid
    unfold edit_task
    cases hfind : db.todos.find? (fun s => s.id == tid && s.user_id == uid) with
    | none =>
      exfalso
      exact List.find?_eq_none.mp hfind t ht (by simp [hid, huid])
    | some s =>
      simp [h]

/-- Witness for C5: a whitespace-only title is rejected by both `add_task`
and `edit_task` of the "Buy Milk" task, leaving the database unchanged. -/
theorem c5_title_validation_witness :
    add_task 1 ⟨"   ", "desc", "", ""⟩ exDb = (.validationError, exDb) ∧
    ∀ tid t, t ∈ exDb.todos → t.id = tid → t.user_id = 1 →
      edit_task 1 tid ⟨"   ", "desc", "", ""⟩ exDb = .ok (.validationError, exDb) :=
  c5_title_validation exDb 1 ⟨"   ", "desc", "", ""⟩ (by decide)

/-- C6: delete idempotence.  `delete_task` removes exactly the rows with the
given id owned by the caller (membership characterization), never errors,
and applying it twice gives the same end state as applying it once. -/
theorem c6_delete_idempotent (db : DB) (uid tid : Nat) :
    (∀ t, t ∈ (delete_task uid tid db).todos ↔
      t ∈ db.todos ∧ ¬(t.id = tid ∧ t.user_id = uid)) ∧
    delete_task uid tid (delete_task uid tid db) = delete_task uid tid db := by
  constructor
  · intro t
    unfold delete_task
    simp only [List.mem_filter, Bool.not_eq_true', Bool.and_eq_false_iff, beq_eq_false_iff_ne,
      ne_eq, not_and]
    tauto
  · unfold delete_task
    have hff : ∀ l : List Task,
        (l.filter (fun t => !(t.id == tid && t.user_id == uid))).filter
            (fun t => !(t.id == tid && t.user_id == uid)) =
          l.filter (fun t => !(t.id == tid && t.user_id == uid)) := by
      intro l
      rw [List.filter_filter]
      exact List.filter_congr fun a _ => Bool.and_self _
    rw [hff]

/-- C7: toggle involution.  For a task `t` owned by the caller (under the
unique-ids table invariant), one `toggle_task` succeeds and flips exactly
the `done` flag of the rows with `t`'s id, and a second `toggle_task`
returns the database to its original state. -/
theorem c7_toggle_involution (db : DB) (uid : Nat) (t : Task)
    (nd : (db.todos.map Task.id).Nodup) (ht : t ∈ db.todos) (huid : t.user_id = uid) :
    ∃ db', toggle_task uid t.id db = .ok db' ∧
      db'.todos = db.todos.map (fun s =>
        if s.id = t.id then { s with done := !t.done } else s) ∧
      toggle_task uid t.id db' = .ok db := by
  have hfind : db.todos.find? (fun s => s.id == t.id && s.user_id == uid) = some t := by
    refine find?_eq_some_of_unique nd ht (by simp [huid]) ?_
    intro s hs
    simp only [Bool.and_eq_true, beq_iff_eq] at hs
    exact hs.1
  refine ⟨{ db with todos := db.todos.map (fun s =>
      if s.id = t.id then { s with done := !t.done } else s) },
    toggle_task_eq_of_find hfind, rfl, ?_⟩
  have hmap_id : ((db.todos.map (fun s =>
      if s.id = t.id then { s with done := !t.done } else s)).map Task.id) =
      db.todos.map Task.id := by
    rw [List.map_map]
    apply List.map_congr_left
    intro s _
    by_cases h : s.id = t.id <;> simp [h]
  have nd' : ((db.todos.map (fun s =>
      if s.id = t.id then { s with done := !t.done } else s)).map Task.id).Nodup := by
    rw [hmap_id]
    exact nd
  have ht' : ({ t with done := !t.done } : Task) ∈ db.todos.map (fun s =>
      if s.id = t.id then { s with done := !t.done } else s) := by
    have hm := List.mem_map_of_mem (fun s =>
      if s.id = t.id then { s with done := !t.done } else s) ht
    simpa using hm
  have hfind' : (db.todos.map (fun s =>
      if s.id = t.id then { s with done := !t.done } else s)).find?
        (fun s => s.id == t.id && s.user_id == uid) = some { t with done := !t.done } := by
    refine find?_eq_some_of_unique nd' ht' (by simp [huid]) ?_
    intro s hs
    simp only [Bool.and_eq_true, beq_iff_eq] at hs
    exact hs.1
  rw [toggle_task_eq_of_find hfind']
  have hback : ((db.todos.map (fun s =>
      if s.id = t.id then { s with done := !t.done } else s)).map (fun s =>
        if s.id = t.id then { s with done := !({ t with done := !t.done } : Task).done } else s)) =
      db.todos := by
    rw [List.map_map]
    have hid : ∀ s ∈ db.todos, ((fun s =>
        if s.id = t.id then { s with done := !({ t with done := !t.done } : Task).done } else s) ∘
        (fun s => if s.id = t.id then { s with done := !t.done } else s)) s = s := by
      intro s hs
      by_cases h : s.id = t.id
      · have hst : s = t := eq_of_mem_of_id_eq nd hs ht h
        subst hst
        simp [h, Bool.not_not]
      · simp [h]
    rw [List.map_congr_left hid, List.map_id']
  rw [hback]

/-- Witness for C7: toggling Alice's "Buy Milk" task twice restores the
database. -/
theorem c7_toggle_involution_witness :
    ∃ db', toggle_task 1 milkTask.id exDb = .ok db' ∧
      db'.todos = exDb.todos.map (fun s =>
        if s.id = milkTask.id then { s with done := !milkTask.done } else s) ∧
      toggle_task 1 milkTask.id db' = .ok exDb :=
  c7_toggle_involution exDb 1 milkTask (by decide) (by decide) (by decide)

/-- C8: username uniqueness with atomicity.  Registering a username that is
already present fails (`create_user` returns `false`) and returns the
database completely unchanged: same user count, same records, same stored
password hash. -/
theorem c8_duplicate_username (db : DB) (name p : String) (u : User)
    (hu : u ∈ db.users) (hname : u.username = name) :
    create_user name p db = (false, db) := by
  have hany : db.users.any (fun v => v.username == name) = true :=
    List.any_eq_true.mpr ⟨u, hu, by simp [hname]⟩
  simp [create_user, hany]

/-- Witness for C8: registering "alice" a second time fails and leaves the
database untouched. -/
theorem c8_duplicate_username_witness :
    create_user "alice" "other-pw" exDb = (false, exDb) :=
  c8_duplicate_username exDb "alice" "other-pw" aliceUser (by decide) (by decide)

/-- C9: session lifecycle.  Whenever login succeeds, the resulting session
is exactly the two-entry dictionary holding the authenticated user's id and
(stripped) username — whatever session state was held before is gone — and
logout clears all session state unconditionally. -/
theorem c9_session_lifecycle (db : DB) (sess : Session) (f : LoginForm)
    (h : (login f sess db).1 = true) :
    (∃ uid, authenticate (pyStrip f.username) f.password db = some uid ∧
      (login f sess db).2 =
        [("user_id", SVal.nat uid), ("username", SVal.str (pyStrip f.username))]) ∧
    logout sess = [] := by
  refine ⟨?_, rfl⟩
  simp only [login] at h ⊢
  cases hauth : authenticate (pyStrip f.username) f.password db with
  | none =>
    rw [hauth] at h
    simp at h
  | some uid =>
    by_cases huid : uid = 0
    · subst huid
      rw [hauth] at h
      simp at h
    · refine ⟨uid, rfl, ?_⟩
      have hns : ¬(("user_id" : String) = "username") := by decide
      simp [huid, session_set, hns]

/-- Witness for C9: logging in as alice wipes a stale session entry and
leaves exactly alice's identity; logout clears the session. -/
theorem c9_session_lifecycle_witness :
    (∃ uid, authenticate (pyStrip "alice") "pw123" exDb = some uid ∧
      (login ⟨"alice", "pw123"⟩ [("stale", SVal.nat 7)] exDb).2 =
        [("user_id", SVal.nat uid), ("username", SVal.str (pyStrip "alice"))]) ∧
    logout [("stale", SVal.nat 7)] = [] :=
  c9_session_lifecycle exDb [("stale", SVal.nat 7)] ⟨"alice", "pw123"⟩ (by decide)

/-- C10 (implicit): both registration and login strip surrounding whitespace
from the submitted username, so two submissions whose usernames agree after
stripping behave identically; the password is used verbatim in both
operations: after registering with a whitespace-padded password, logging in
with the exact password succeeds while logging in with its stripped variant
fails. -/
theorem c10_username_whitespace (db : DB) (sess : Session) (u1 u2 p p2 : String)
    (heq : pyStrip u1 = pyStrip u2)
    (hfresh : ∀ v ∈ db.users, v.username ≠ pyStrip u1)
    (hid : db.nextUserId ≠ 0)
    (hu : pyStrip u1 ≠ "") (hp : p ≠ "") (hps : pyStrip p ≠ p) :
    register ⟨u1, p, p2⟩ db = register ⟨u2, p, p2⟩ db ∧
    login ⟨u1, p⟩ sess db = login ⟨u2, p⟩ sess db ∧
    (login ⟨u1, p⟩ sess (register ⟨u1, p, p⟩ db).2).1 = true ∧
    (login ⟨u1, pyStrip p⟩ sess (register ⟨u1, p, p⟩ db).2).1 = false := by
  obtain ⟨hcu1, _, hauth⟩ := authenticate_create_user db (pyStrip u1) p hfresh
  have hreg : register ⟨u1, p, p⟩ db = (.created, (create_user (pyStrip u1) p db).2) := by
    unfold register
    rw [if_neg (not_or.mpr ⟨hu, hp⟩), if_neg (by simp)]
    cases hc : create_user (pyStrip u1) p db with
    | mk b db2 =>
      have hb : b = true := by
        have := hcu1
        rw [hc] at this
        exact this
      subst hb
      rfl
  refine ⟨?_, ?_, ?_, ?_⟩
  · unfold register
    rw [heq]
  · unfold login
    rw [heq]
  · rw [hreg]
    simp only [login]
    rw [hauth p, if_pos rfl]
    simp [hid]
  · rw [hreg]
    simp only [login]
    rw [hauth (pyStrip p), if_neg hps]

/-- Witness for C10: on the empty database, registering with username
" alice " behaves as with "alice", login agrees likewise, and the padded
password " pw1 " must be resubmitted verbatim: its stripped form "pw1" is
rejected. -/
theorem c10_username_whitespace_witness :
    register ⟨" alice ", " pw1 ", "zz"⟩ emptyDb = register ⟨"alice", " pw1 ", "zz"⟩ emptyDb ∧
    login ⟨" alice ", " pw1 "⟩ [] emptyDb = login ⟨"alice", " pw1 "⟩ [] emptyDb ∧
    (login ⟨" alice ", " pw1 "⟩ [] (register ⟨" alice ", " pw1 ", " pw1 "⟩ emptyDb).2).1 = true ∧
    (login ⟨" alice ", pyStrip " pw1 "⟩ [] (register ⟨" alice ", " pw1 ", " pw1 "⟩ emptyDb).2).1 = false :=
  c10_username_whitespace emptyDb [] " alice " "alice" " pw1 " "zz"
    (by decide) (by simp [emptyDb]) (by decide) (by decide) (by decide) (by decide)

end TodoApp
